import Mathlib

/-!
Verification of the DepthAI daemon (depthai_daemon.py) against its
natural-language specification.

Shallow embedding conventions:
* Python floats holding wall-clock timestamps, frame rates and temperatures
  are modelled as exact rationals (`ℚ`).  Python float division raising
  `ZeroDivisionError` on a zero denominator is modelled by returning
  `Except.error ()`.
* Python mutable objects become explicit state records; methods become
  functions from state to state.
* Python dictionaries (the JSON configuration) become association lists in
  insertion order, matching the ordered-dict semantics used by the merge.
-/

namespace DepthAI

/-! ## DepthAIStats (src/depthai_daemon.py, class DepthAIStats)

State of a `DepthAIStats` object.  `start_time` is the wall-clock time
captured in `__init__`.  The two history lists are Python lists appended at
the back and popped at the front. -/

structure Stats where
  start_time : ℚ
  frame_count : Nat
  error_count : Nat
  last_frame_time : ℚ
  fps_history : List ℚ
  imu_data_count : Nat
  temperature_history : List ℚ
deriving DecidableEq, Repr

/-- `DepthAIStats.__init__`: counters at zero, empty histories,
`last_frame_time = 0`, `start_time = time.time()` (passed in as `t0`). -/
def initStats (t0 : ℚ) : Stats :=
  { start_time := t0, frame_count := 0, error_count := 0, last_frame_time := 0
    fps_history := [], imu_data_count := 0, temperature_history := [] }

/-- `DepthAIStats.update_frame_stats`, with the call to `time.time()` made
an explicit argument `now`.  When `last_frame_time > 0` the source computes
`fps = 1.0 / (current_time - self.last_frame_time)`; a zero elapsed time
makes that a Python `ZeroDivisionError`, modelled as `Except.error ()`
(no field has been mutated at that point, so the object is unchanged when
the exception propagates).  Otherwise the rate is appended and the window
popped at the front beyond 30 entries, then the frame counter and the last
frame time are updated. -/
def update_frame_stats (s : Stats) (now : ℚ) : Except Unit Stats :=
  if 0 < s.last_frame_time then
    if now - s.last_frame_time = 0 then
      Except.error ()
    else
      let fps : ℚ := 1 / (now - s.last_frame_time)
      let hist := s.fps_history ++ [fps]
      let hist := if 30 < hist.length then hist.drop 1 else hist
      Except.ok { s with fps_history := hist, frame_count := s.frame_count + 1,
                         last_frame_time := now }
  else
    Except.ok { s with frame_count := s.frame_count + 1, last_frame_time := now }

/-- `DepthAIStats.update_imu_stats`. -/
def update_imu_stats (s : Stats) : Stats :=
  { s with imu_data_count := s.imu_data_count + 1 }

/-- `DepthAIStats.increment_error`. -/
def increment_error (s : Stats) : Stats :=
  { s with error_count := s.error_count + 1 }

/-- `DepthAIStats.add_temperature_reading`: append, pop the front beyond 60
entries. -/
def add_temperature_reading (s : Stats) (temp_celsius : ℚ) : Stats :=
  let hist := s.temperature_history ++ [temp_celsius]
  let hist := if 60 < hist.length then hist.drop 1 else hist
  { s with temperature_history := hist }

/-- The dictionary returned by `DepthAIStats.get_stats`.  The two fields the
source renders as formatted date strings (`uptime_formatted`,
`last_frame_time`) are string renderings of `uptime_seconds` and of the raw
`last_frame_time` and are not modelled separately. -/
structure StatsSnapshot where
  uptime_seconds : ℚ
  total_frames : Nat
  error_count : Nat
  current_fps : ℚ
  average_fps : ℚ
  imu_data_count : Nat
  average_temperature_c : Option ℚ
  current_temperature_c : Option ℚ
deriving DecidableEq, Repr

/-- `DepthAIStats.get_stats`, with the call to `time.time()` made the
explicit argument `now`.  `avg_fps` is `sum/len` if the window is nonempty
else `0`; `avg_temp` is `sum/len` if nonempty else `None`; `current_fps`
is the last window entry or `0`; `current_temperature_c` is the last
reading or `None`. -/
def get_stats (s : Stats) (now : ℚ) : StatsSnapshot :=
  let avg_fps : ℚ :=
    if s.fps_history.isEmpty then 0
    else s.fps_history.sum / (s.fps_history.length : ℚ)
  let avg_temp : Option ℚ :=
    if s.temperature_history.isEmpty then none
    else some (s.temperature_history.sum / (s.temperature_history.length : ℚ))
  { uptime_seconds := now - s.start_time
    total_frames := s.frame_count
    error_count := s.error_count
    current_fps := (s.fps_history.getLast?).getD 0
    average_fps := avg_fps
    imu_data_count := s.imu_data_count
    average_temperature_c := avg_temp
    current_temperature_c := s.temperature_history.getLast? }

/-- One iteration of `DepthAIDaemon._process_frames` as it touches the
statistics object: `update_frame_stats` is called inside the `try` block,
and any exception is caught and answered with `self.stats.increment_error()`. -/
def process_tick (s : Stats) (now : ℚ) : Stats :=
  match update_frame_stats s now with
  | Except.ok s2 => s2
  | Except.error _ => increment_error s

/-- A sequence of `update_frame_stats` calls at the given timestamps; the
first raised exception aborts the sequence (as an uncaught exception
would). -/
def run_frames : Stats → List ℚ → Except Unit Stats
  | s, [] => Except.ok s
  | s, t :: ts =>
    match update_frame_stats s t with
    | Except.error e => Except.error e
    | Except.ok s2 => run_frames s2 ts

/-- A sequence of `add_temperature_reading` calls. -/
def run_temperatures (s : Stats) (temps : List ℚ) : Stats :=
  temps.foldl add_temperature_reading s

/-! ## HealthMonitor (src/depthai_daemon.py, class HealthMonitor) -/

/-- An entry of the `issues` list built by `HealthMonitor._check_health`.
The source appends the strings `"Low or no frame rate"` and
`f"High error rate: rate"` (the second carries the computed error rate,
rendered as a percentage); the carried rate is kept as data. -/
inductive Issue where
  | lowFrameRate
  | highErrorRate (error_rate : ℚ)
deriving DecidableEq, Repr

/-- The `health` dictionary produced by `HealthMonitor._check_health`. -/
structure Health where
  status : String
  issues : List Issue
deriving DecidableEq, Repr

/-- `HealthMonitor._check_health`: start `healthy` with no issues; flag a
low frame rate when `current_fps < 1.0` and `total_frames > 0`; flag a high
error rate when `total_frames > 0` and `error_count / total_frames > 0.1`;
the status becomes `degraded` exactly when the issue list is nonempty. -/
def _check_health (stats : StatsSnapshot) : Health :=
  let issues1 : List Issue :=
    if stats.current_fps < 1 ∧ 0 < stats.total_frames then [Issue.lowFrameRate] else []
  let issues2 : List Issue :=
    if 0 < stats.total_frames then
      let error_rate : ℚ := (stats.error_count : ℚ) / (stats.total_frames : ℚ)
      if 1/10 < error_rate then issues1 ++ [Issue.highErrorRate error_rate] else issues1
    else issues1
  { status := if issues2 = [] then "healthy" else "degraded", issues := issues2 }

/-! ## DepthAIConfig (src/depthai_daemon.py, class DepthAIConfig)

JSON values as they occur in the configuration documents.  A Python `dict`
is an association list in insertion order; arrays in the configuration hold
numbers. -/

inductive JValue where
  | num (n : ℚ)
  | str (s : String)
  | boolean (b : Bool)
  | arr (xs : List ℚ)
  | obj (fields : List (String × JValue))

/-- Dictionary lookup (`key in result` / `result[key]`). -/
def lookupJ : List (String × JValue) → String → Option JValue
  | [], _ => none
  | (k, v) :: rest, key => if k = key then some v else lookupJ rest key

/-- Dictionary assignment `result[key] = value`: replace the value of an
existing key in place, or append a new key at the end (Python dicts keep
insertion order). -/
def setKey : List (String × JValue) → String → JValue → List (String × JValue)
  | [], key, v => [(key, v)]
  | (k, w) :: rest, key, v =>
    if k = key then (k, v) :: rest else (k, w) :: setKey rest key v

mutual

/-- `DepthAIConfig._merge_config`: start from a copy of `default`, then for
each `key, value` of `user` in order, store at `key` the value `mergeVal`
describes — the body of the Python loop
`if key in result and isinstance(result[key], dict) and isinstance(value, dict):
result[key] = self._merge_config(result[key], value) else: result[key] = value`. -/
def _merge_config : List (String × JValue) → List (String × JValue) →
    List (String × JValue)
  | result, [] => result
  | result, (key, value) :: rest =>
    _merge_config (setKey result key (mergeVal (lookupJ result key) value)) rest
termination_by _ u => (sizeOf u, 1)
decreasing_by all_goals (simp_wf; omega)

/-- The value the merge stores at one key: a recursive merge when the key
is present and both sides are dicts, the user value outright otherwise. -/
def mergeVal : Option JValue → JValue → JValue
  | some (JValue.obj dsub), JValue.obj usub =>
    JValue.obj (_merge_config dsub usub)
  | _, v => v
termination_by _ v => (sizeOf v, 0)
decreasing_by all_goals (simp_wf; omega)

end

/-- The keys of a dictionary. -/
def keysOf (d : List (String × JValue)) : List String := d.map Prod.fst

/-! ## Connection supervisor loop (DepthAIDaemon.run)

The loop body is driven by what the device does on each iteration; one
`Outcome` is consumed per iteration of `while self.running and
reconnect_attempts < max_attempts`. -/

/-- What happens during one iteration of the supervisor loop. -/
inductive Outcome where
  /-- pipeline construction or `dai.Device(...)` raised before streaming -/
  | connectFail
  /-- the connection succeeded and later the streaming body raised
  (mid-stream device failure) -/
  | streamFail
  /-- the connection succeeded and `_process_frames` returned cleanly
  because an external shutdown cleared `self.running` -/
  | shutdown
deriving DecidableEq, Repr

/-- Observable events of `DepthAIDaemon.run`, each carrying the value of
the local variable `reconnect_attempts` at that point. -/
inductive Event where
  /-- the loop body begins an attempt with this counter value -/
  | attemptStarted (reconnect_attempts : Nat)
  /-- `reconnect_attempts = 0  # Reset on successful connection` has just
  executed and `_process_frames` is about to run -/
  | streamingStarted (reconnect_attempts : Nat)
  /-- the `else: ... break` branch ran: max attempts reached, loop exits -/
  | exitFailed
  /-- the loop exits because `self.running` became false -/
  | exitShutdown
deriving DecidableEq, Repr

/-- The event trace of `DepthAIDaemon.run` for a given outcome oracle,
starting from a given `reconnect_attempts` value (`0` at entry).  On a
connect failure the counter is incremented and the loop retries after the
delay unless the counter has reached `max_attempts`, in which case the loop
breaks.  On a successful connection the counter is reset to `0` before the
dispatch loop runs; a mid-stream failure then increments it from `0` to
`1`.  An exhausted oracle truncates the trace (the run is observed only
that far). -/
def run_loop (max_attempts : Nat) : Nat → List Outcome → List Event
  | _, [] => []
  | attempts, o :: rest =>
    if attempts < max_attempts then
      Event.attemptStarted attempts ::
        match o with
        | Outcome.connectFail =>
          if attempts + 1 < max_attempts then
            run_loop max_attempts (attempts + 1) rest
          else
            [Event.exitFailed]
        | Outcome.streamFail =>
          Event.streamingStarted 0 ::
            (if 0 + 1 < max_attempts then
              run_loop max_attempts (0 + 1) rest
            else
              [Event.exitFailed])
        | Outcome.shutdown =>
          [Event.streamingStarted 0, Event.exitShutdown]
    else []

/-! ## Status publication (HealthMonitor._update_status)

`_update_status` builds the status dictionary and then executes
`with open(self.status_file, 'w') as f: json.dump(status, f, indent=2)` —
an in-place truncating open followed by a write, with no temporary file and
no rename. -/

/-- The status dictionary written by `HealthMonitor._update_status`:
`datetime.now()` and `os.getpid()` are the explicit arguments `now` and
`pid`. -/
structure StatusDoc where
  timestamp : ℚ
  status : String
  pid : Nat
  stats : StatsSnapshot
  health : Health
deriving DecidableEq, Repr

/-- The document `_update_status` builds from the current statistics. -/
def make_status (now : ℚ) (pid : Nat) (s : Stats) : StatusDoc :=
  let stats := get_stats s now
  { timestamp := now, status := "running", pid := pid, stats := stats
    health := _check_health stats }

/-- A filesystem micro-step on the status path, at the granularity a
concurrent reader can observe. -/
inductive FsOp where
  /-- `open(path, 'w')` truncates the file in place -/
  | truncate
  /-- `json.dump` writes the serialized document into the open file -/
  | writeDoc (d : StatusDoc)
  /-- atomically renaming a fully written temporary file over the status
  path (the replacement the spec describes; not used by the source) -/
  | renameInto (d : StatusDoc)
deriving DecidableEq

/-- The sequence of filesystem micro-steps `_update_status` performs on the
status path (source lines 212-213). -/
def update_status_ops (d : StatusDoc) : List FsOp :=
  [FsOp.truncate, FsOp.writeDoc d]

/-- File content as a reader sees it: `some d` when the path holds a
complete serialized document, `none` when it holds no complete document
(empty after truncation, or partially written). -/
def applyFsOp : Option StatusDoc → FsOp → Option StatusDoc
  | _, FsOp.truncate => none
  | _, FsOp.writeDoc d => some d
  | _, FsOp.renameInto d => some d

/-- Every content a concurrent reader can observe while the given
micro-steps run, starting from `start` (the previous content), including
the states before the first and after the last step. -/
def observable_contents (start : Option StatusDoc) (ops : List FsOp) :
    List (Option StatusDoc) :=
  ops.scanl applyFsOp start

/-- Modelled from the spec: a publication of `d` over previous content
`start` is atomic when a reader can only ever observe the old content or
the complete new document — never a missing/partial one. -/
def atomic_publication (start : Option StatusDoc) (d : StatusDoc) : Prop :=
  ∀ c ∈ observable_contents start (update_status_ops d), c = start ∨ c = some d

/-! ## Configuration reload and the references held by the components
(DepthAIDaemon.__init__, DepthAIDaemon._reload_config, HealthMonitor)

`__init__` creates one `DepthAIConfig` object and hands the same reference
to `HealthMonitor(self.stats, self.config)`.  `_reload_config` rebinds
`self.config` of the daemon to a freshly constructed `DepthAIConfig` and
touches nothing else; the monitor keeps its original reference.  The heap
of allocated `DepthAIConfig` objects is modelled as a list indexed by
allocation order. -/

/-- The configuration fields the two readers in question consult:
`_monitor_loop` reads `service.health_check_interval`, the dispatch-loop
handlers read `output.save_frames`. -/
structure ConfigDoc where
  health_check_interval : Nat
  save_frames : Bool
deriving DecidableEq, Repr

/-- The relevant entries of `DepthAIConfig.DEFAULT_CONFIG`:
`health_check_interval = 30`, `save_frames = False`. -/
def defaultConfigDoc : ConfigDoc :={ health_check_interval := 30, save_frames := false }

/-- The daemon's reference state: the heap of `DepthAIConfig` objects ever
constructed, and the indices held by `DepthAIDaemon.config` and by
`HealthMonitor.config`. -/
structure DaemonRefs where
  heap : List ConfigDoc
  daemon_config : Nat
  monitor_config : Nat
deriving DecidableEq, Repr

/-- `DepthAIDaemon.__init__`: allocate the configuration object; the
`HealthMonitor` is constructed with that same reference. -/
def initDaemon (c : ConfigDoc) : DaemonRefs :=
  { heap := [c], daemon_config := 0, monitor_config := 0 }

/-- `DepthAIDaemon._reload_config` (SIGHUP): allocate a fresh
`DepthAIConfig` from the file (its parsed content is `newDoc`) and rebind
only the daemon's own `self.config`. -/
def _reload_config (s : DaemonRefs) (newDoc : ConfigDoc) : DaemonRefs :=
  { heap := s.heap ++ [newDoc], daemon_config := s.heap.length
    monitor_config := s.monitor_config }

/-- The configuration object a component holding reference `i` reads. -/
def readRef (s : DaemonRefs) (i : Nat) : ConfigDoc :=
  (s.heap.get? i).getD defaultConfigDoc

/-- The interval `HealthMonitor._monitor_loop` sleeps for:
`self.config.config["service"]["health_check_interval"]` through the
monitor's reference. -/
def monitor_interval (s : DaemonRefs) : Nat :=
  (readRef s s.monitor_config).health_check_interval

/-- The persistence switch the dispatch-loop handlers read:
`self.config.config["output"]["save_frames"]` through the daemon's own
reference. -/
def dispatch_save_frames (s : DaemonRefs) : Bool :=
  (readRef s s.daemon_config).save_frames

/-! ## Retention-bounded artifact store
(DepthAIDaemon._save_frame, _save_imu_data, _cleanup_old_files)

A file name is modelled by its components: `_save_frame` writes
`frame_type_timestamp_framecount.jpg` into the output directory,
`_save_imu_data` writes `imu_timestamp.json` into the `imu` subdirectory.
A directory is the list of its files; `ctime` is the creation time
`os.path.getctime` reports. -/

structure ArtifactName where
  kind : String
  stamp : Nat
  seq : Nat
  ext : String
deriving DecidableEq, Repr

structure SavedFile where
  name : ArtifactName
  ctime : Nat
deriving DecidableEq, Repr

/-- The sort key of the retention sweep: `key=os.path.getctime`. -/
def ctLe (a b : SavedFile) : Prop := a.ctime ≤ b.ctime

instance : DecidableRel ctLe := fun a b => Nat.decLe a.ctime b.ctime

instance : IsTotal SavedFile ctLe := ⟨fun a b => Nat.le_total a.ctime b.ctime⟩

instance : IsTrans SavedFile ctLe := ⟨fun _ _ _ => Nat.le_trans⟩

/-- `Path(directory).glob("*.jpg")`: only `.jpg` entries take part in the
sweep. -/
def jpgFiles (dir : List SavedFile) : List SavedFile :=
  dir.filter (fun f => f.name.ext == ".jpg")

/-- `DepthAIDaemon._cleanup_old_files`: sort the `.jpg` entries by creation
time (Python `sorted` is stable, as is insertion sort); when the count
exceeds `max_files`, unlink `files[:-max_files]` — the oldest
`count - max_files` entries.  (`files[:-0]` is the empty slice, so with
`max_files = 0` Python removes nothing; hence the guard.)  Each unlink
removes the file with that path from the directory. -/
def _cleanup_old_files (max_files : Nat) (dir : List SavedFile) :
    List SavedFile :=
  let files := List.insertionSort ctLe (jpgFiles dir)
  if max_files < files.length then
    let files_to_remove :=
      if max_files = 0 then [] else files.take (files.length - max_files)
    dir.filter (fun f => !(files_to_remove.any (fun g => g.name == f.name)))
  else dir

/-- `DepthAIDaemon._save_frame`: write
`frame_type_timestamp_framecount.jpg` to the output directory (its ctime
is the write time `now`, which also renders the timestamp in the name),
then run the retention sweep on that directory. -/
def _save_frame (max_files : Nat) (dir : List SavedFile) (frame_type : String)
    (frame_count : Nat) (now : Nat) : List SavedFile :=
  _cleanup_old_files max_files
    (dir ++ [{ name := { kind := frame_type, stamp := now, seq := frame_count,
                         ext := ".jpg" }, ctime := now }])

/-- `DepthAIDaemon._save_imu_data`: write `imu_timestamp.json` into the
`imu` subdirectory.  The method performs no retention sweep (and the sweep
only globs `*.jpg` in the frame directory in any case). -/
def _save_imu_data (imu_dir : List SavedFile) (now : Nat) : List SavedFile :=
  imu_dir ++ [{ name := { kind := "imu", stamp := now, seq := 0,
                          ext := ".json" }, ctime := now }]

/-- `n` sequential completed `_save_frame` calls on an initially empty
output directory, at strictly increasing times `1, 2, …, n`. -/
def frameSaves (max_files : Nat) : Nat → List SavedFile
  | 0 => []
  | n + 1 => _save_frame max_files (frameSaves max_files n) "rgb" n (n + 1)

/-- `n` sequential completed `_save_imu_data` calls on an initially empty
`imu` directory, at strictly increasing times `1, 2, …, n`. -/
def imuSaves : Nat → List SavedFile
  | 0 => []
  | n + 1 => _save_imu_data (imuSaves n) (n + 1)

/-- A concrete statistics snapshot used as a witness input. -/
def mkSnapshot (tf ec : Nat) (fps : ℚ) : StatsSnapshot :=
  { uptime_seconds := 0, total_frames := tf, error_count := ec,
    current_fps := fps, average_fps := fps, imu_data_count := 0,
    average_temperature_c := none, current_temperature_c := none }

/-- The statistics state after one frame recorded at time `1`, used as a
witness input. -/
def statsAfterOneFrame : Stats :=
  { start_time := 0, frame_count := 1, error_count := 0, last_frame_time := 1,
    fps_history := [], imu_data_count := 0, temperature_history := [] }

/-! ## Theorems -/

/-- C7: for every statistics snapshot with `total_frames = 0`, the health
verdict has status `healthy` and an empty issue list, whatever the error
count and the fps window hold (startup grace). -/
theorem c7_startup_grace (st : StatsSnapshot) (h : st.total_frames = 0) :
    _check_health st = { status := "healthy", issues := [] } := by
  simp [_check_health, h]

theorem c7_startup_grace_witness :
    _check_health (get_stats (initStats 0) 5) =
      { status := "healthy", issues := [] } :=
  c7_startup_grace _ rfl

/-- C8: with `total_frames = 100`, `error_count = 11` and
`current_fps ≥ 1`, the verdict is `degraded` and carries the
high-error-rate issue; with `error_count = 9` it is `healthy`; and in
general the high-error-rate issue is flagged exactly when
`total_frames > 0` and `error_count / total_frames > 1/10`. -/
theorem c8_high_error_rate :
    (∀ st : StatsSnapshot, st.total_frames = 100 → st.error_count = 11 →
      1 ≤ st.current_fps →
      (_check_health st).status = "degraded" ∧
        Issue.highErrorRate (11 / 100) ∈ (_check_health st).issues) ∧
    (∀ st : StatsSnapshot, st.total_frames = 100 → st.error_count = 9 →
      1 ≤ st.current_fps →
      _check_health st = { status := "healthy", issues := [] }) ∧
    (∀ st : StatsSnapshot,
      (∃ r, Issue.highErrorRate r ∈ (_check_health st).issues) ↔
        0 < st.total_frames ∧
          1 / 10 < (st.error_count : ℚ) / (st.total_frames : ℚ)) := by
  refine ⟨?_, ?_, ?_⟩
  · intro st h1 h2 h3
    have hfps : ¬ st.current_fps < 1 := not_lt.mpr h3
    simp [_check_health, h1, h2, hfps]
    norm_num
  · intro st h1 h2 h3
    have hfps : ¬ st.current_fps < 1 := not_lt.mpr h3
    simp [_check_health, h1, h2, hfps]
    norm_num
  · intro st
    simp only [_check_health]
    split_ifs <;> simp_all

theorem c8_high_error_rate_witness :
    ((_check_health (mkSnapshot 100 11 30)).status = "degraded" ∧
      Issue.highErrorRate (11 / 100) ∈
        (_check_health (mkSnapshot 100 11 30)).issues) ∧
    _check_health (mkSnapshot 100 9 30) =
      { status := "healthy", issues := [] } :=
  ⟨c8_high_error_rate.1 _ rfl rfl (by norm_num [mkSnapshot]),
   c8_high_error_rate.2.1 _ rfl rfl (by norm_num [mkSnapshot])⟩

/-- C10: in every snapshot taken while the temperature history is empty
(no reading was ever recorded), both temperature fields are `None`
(JSON `null`); by contrast, with an empty rate window `current_fps` and
`average_fps` default to `0`. -/
theorem c10_temperature_none (s : Stats) (now : ℚ)
    (htemp : s.temperature_history = []) :
    (get_stats s now).average_temperature_c = none ∧
    (get_stats s now).current_temperature_c = none ∧
    (s.fps_history = [] →
      (get_stats s now).current_fps = 0 ∧ (get_stats s now).average_fps = 0) := by
  refine ⟨by simp [get_stats, htemp], by simp [get_stats, htemp], ?_⟩
  intro hfps
  simp [get_stats, hfps]

theorem c10_temperature_none_witness :
    (get_stats (initStats 0) 5).average_temperature_c = none ∧
    (get_stats (initStats 0) 5).current_temperature_c = none ∧
    ((initStats 0).fps_history = [] →
      (get_stats (initStats 0) 5).current_fps = 0 ∧
        (get_stats (initStats 0) 5).average_fps = 0) :=
  c10_temperature_none (initStats 0) 5 rfl

/-- C3 (counterexample): two `update_frame_stats` calls with the identical
timestamp `1` do raise the division error — the claim that no division
error is raised is false on the code. -/
theorem c3_counterexample :
    run_frames (initStats 0) [1, 1] = Except.error () := by
  norm_num [run_frames, update_frame_stats, initStats]

/-- C3 (amended): a second `update_frame_stats` call with a timestamp
identical to the (positive) previous one raises `ZeroDivisionError`; the
exception is raised before any field is mutated, so the dispatch loop,
which catches it and counts an error, leaves the rate window exactly as it
was — the window is not corrupted and keeps respecting its capacity. -/
theorem c3_duplicate_timestamp (s : Stats) (t : ℚ)
    (hlast : s.last_frame_time = t) (hpos : 0 < t) :
    update_frame_stats s t = Except.error () ∧
    process_tick s t = increment_error s ∧
    (process_tick s t).fps_history = s.fps_history := by
  have h1 : update_frame_stats s t = Except.error () := by
    rw [update_frame_stats, hlast]
    simp [hpos]
  exact ⟨h1, by simp [process_tick, h1],
    by simp [process_tick, h1, increment_error]⟩

theorem c3_duplicate_timestamp_witness :
    update_frame_stats statsAfterOneFrame 1 = Except.error () ∧
    process_tick statsAfterOneFrame 1 = increment_error statsAfterOneFrame ∧
    (process_tick statsAfterOneFrame 1).fps_history =
      statsAfterOneFrame.fps_history :=
  c3_duplicate_timestamp statsAfterOneFrame 1 rfl (by norm_num)

/-- C2 (counterexample): the publication of `_update_status` is not an
atomic replacement — between its truncating open and the completed write a
reader observes a state with no complete document, which is neither the
previous content nor the new one. -/
theorem c2_counterexample :
    ¬ atomic_publication (some (make_status 0 1 (initStats 0)))
        (make_status 0 1 (initStats 0)) := by
  intro h
  have hmem : (none : Option StatusDoc) ∈
      observable_contents (some (make_status 0 1 (initStats 0)))
        (update_status_ops (make_status 0 1 (initStats 0))) := by
    simp [observable_contents, update_status_ops, applyFsOp]
  rcases h none hmem with h' | h' <;> exact Option.noConfusion h'

/-- C2 (amended): each publication truncates the status file in place and
then writes the document; the contents a reader can observe are exactly
the previous content, then a state holding no complete document (truncated
or partially written, hence missing the required top-level keys), then the
complete new document.  The write is not an atomic replace. -/
theorem c2_truncate_then_write (start : Option StatusDoc) (d : StatusDoc) :
    observable_contents start (update_status_ops d) = [start, none, some d] :=
  rfl

/-- C6 (counterexample): after a reload that changes
`health_check_interval` from its default `30` to `7`, the health monitor
still reads `30` — it does not observe the reloaded configuration. -/
theorem c6_counterexample :
    monitor_interval
        (_reload_config (initDaemon defaultConfigDoc)
          { health_check_interval := 7, save_frames := true }) ≠ 7 := by
  decide

/-- C6 (amended): after `_reload_config`, the daemon's own reads (the
dispatch-loop persistence settings) observe the newly loaded
configuration, but the `HealthMonitor` keeps the `DepthAIConfig` reference
captured at construction, so its interval still comes from the pre-reload
configuration. -/
theorem c6_reload_aliasing (c0 c1 : ConfigDoc) :
    dispatch_save_frames (_reload_config (initDaemon c0) c1) = c1.save_frames ∧
    monitor_interval (_reload_config (initDaemon c0) c1) =
      c0.health_check_interval := by
  constructor <;>
    simp [dispatch_save_frames, monitor_interval, _reload_config, initDaemon,
      readRef]

/-- C1: with `max_reconnect_attempts = 3`, a run whose first three
iterations are connect failures starts exactly attempts `0, 1, 2` and then
exits through the max-attempts branch, never starting a fourth attempt
whatever happens afterwards; in every run the attempt counter reads `0` at
the start of streaming; and after a successful connection whose stream
later fails, the loop continues from counter `1` regardless of how many
failures preceded the success. -/
theorem c1_reconnect_machine :
    (∀ rest, run_loop 3 0
        (Outcome.connectFail :: Outcome.connectFail :: Outcome.connectFail ::
          rest) =
      [Event.attemptStarted 0, Event.attemptStarted 1, Event.attemptStarted 2,
        Event.exitFailed]) ∧
    (∀ max_attempts a os n,
      Event.streamingStarted n ∈ run_loop max_attempts a os → n = 0) ∧
    (∀ max_attempts a os, a < max_attempts →
      run_loop max_attempts a (Outcome.streamFail :: os) =
        Event.attemptStarted a :: Event.streamingStarted 0 ::
          (if 1 < max_attempts then run_loop max_attempts 1 os
           else [Event.exitFailed])) := by
  refine ⟨fun rest => rfl, ?_, ?_⟩
  · intro max_attempts a os
    induction os generalizing a with
    | nil => intro n h; simp [run_loop] at h
    | cons o rest ih =>
      intro n h
      cases o with
      | connectFail =>
        rw [run_loop] at h
        by_cases hlt : a < max_attempts
        · rw [if_pos hlt] at h
          rcases List.mem_cons.mp h with h1 | h1
          · exact Event.noConfusion h1
          · split at h1
            · exact ih _ n h1
            · simp at h1
        · rw [if_neg hlt] at h
          simp at h
      | streamFail =>
        rw [run_loop] at h
        by_cases hlt : a < max_attempts
        · rw [if_pos hlt] at h
          rcases List.mem_cons.mp h with h1 | h1
          · exact Event.noConfusion h1
          · rcases List.mem_cons.mp h1 with h2 | h2
            · exact (Event.streamingStarted.injEq _ _).mp h2
            · split at h2
              · exact ih _ n h2
              · simp at h2
        · rw [if_neg hlt] at h
          simp at h
      | shutdown =>
        rw [run_loop] at h
        by_cases hlt : a < max_attempts
        · rw [if_pos hlt] at h
          simp only [List.mem_cons, List.not_mem_nil, or_false] at h
          rcases h with h1 | h1 | h1
          · exact Event.noConfusion h1
          · exact (Event.streamingStarted.injEq _ _).mp h1
          · exact Event.noConfusion h1
        · rw [if_neg hlt] at h
          simp at h
  · intro max_attempts a os h
    rw [run_loop, if_pos h]

theorem c1_reconnect_machine_witness :
    (0 = 0) ∧
    run_loop 3 0 [Outcome.streamFail] =
      Event.attemptStarted 0 :: Event.streamingStarted 0 ::
        (if 1 < 3 then run_loop 3 1 [] else [Event.exitFailed]) :=
  ⟨c1_reconnect_machine.2.1 3 0 [Outcome.streamFail] 0 (by decide),
   c1_reconnect_machine.2.2 3 0 [] (by decide)⟩

/-- One step of the merge: processing the first user entry stores
`mergeVal` of the present value and the user value at that key. -/
theorem merge_config_cons (d : List (String × JValue)) (key : String)
    (value : JValue) (rest : List (String × JValue)) :
    _merge_config d ((key, value) :: rest) =
      _merge_config (setKey d key (mergeVal (lookupJ d key) value)) rest := by
  rw [_merge_config]

theorem lookupJ_setKey_self (d : List (String × JValue)) (k : String)
    (v : JValue) : lookupJ (setKey d k v) k = some v := by
  induction d with
  | nil => simp [setKey, lookupJ]
  | cons p rest ih =>
    obtain ⟨k1, w⟩ := p
    by_cases h : k1 = k
    · simp [setKey, h, lookupJ]
    · simp [setKey, h, lookupJ, ih]

theorem lookupJ_setKey_ne (d : List (String × JValue)) (k k' : String)
    (v : JValue) (h : k ≠ k') : lookupJ (setKey d k v) k' = lookupJ d k' := by
  induction d with
  | nil => simp [setKey, lookupJ, h]
  | cons p rest ih =>
    obtain ⟨k1, w⟩ := p
    by_cases h1 : k1 = k
    · subst h1
      simp [setKey, lookupJ, h]
    · simp [setKey, h1, lookupJ, ih]

theorem keysOf_setKey_mem (d : List (String × JValue)) (k m : String)
    (v : JValue) (h : m ∈ keysOf d) : m ∈ keysOf (setKey d k v) := by
  induction d with
  | nil => simp [keysOf] at h
  | cons p rest ih =>
    obtain ⟨k1, w⟩ := p
    by_cases h1 : k1 = k
    · subst h1
      simpa [setKey, keysOf] using h
    · rcases List.mem_cons.mp h with h2 | h2
      · simp [setKey, h1, keysOf, h2]
      · have h3 : m ∈ keysOf (setKey rest k v) := ih (by simpa [keysOf] using h2)
        simp [setKey, h1, keysOf] at h3 ⊢
        exact Or.inr h3

/-- Keys untouched by the user document keep their default binding. -/
theorem lookupJ_merge_not_mem (u : List (String × JValue)) :
    ∀ (d : List (String × JValue)) (k : String), k ∉ keysOf u →
      lookupJ (_merge_config d u) k = lookupJ d k := by
  induction u with
  | nil => intro d k _; rw [_merge_config]
  | cons p rest ih =>
    intro d k hk
    obtain ⟨key, value⟩ := p
    have hne : key ≠ k := by
      intro he
      exact hk (by simp [keysOf, he])
    have hk2 : k ∉ keysOf rest := by
      intro hm
      exact hk (by simp [keysOf] at hm ⊢; exact Or.inr hm)
    rw [merge_config_cons, ih _ k hk2, lookupJ_setKey_ne _ _ _ _ hne]

/-- Every key of the default document is present after the merge. -/
theorem keysOf_merge_mem (u : List (String × JValue)) :
    ∀ (d : List (String × JValue)) (k : String), k ∈ keysOf d →
      k ∈ keysOf (_merge_config d u) := by
  induction u with
  | nil => intro d k h; rw [_merge_config]; exact h
  | cons p rest ih =>
    intro d k h
    obtain ⟨key, value⟩ := p
    rw [merge_config_cons]
    exact ih _ k (keysOf_setKey_mem _ _ _ _ h)

/-- The merged value at every user key: a recursive merge when both sides
are dicts, the user value outright otherwise. -/
theorem lookupJ_merge (u : List (String × JValue)) :
    ∀ (d : List (String × JValue)) (k : String) (v : JValue),
      (keysOf u).Nodup → lookupJ u k = some v →
      lookupJ (_merge_config d u) k = some (mergeVal (lookupJ d k) v) := by
  induction u with
  | nil => intro d k v _ hk; simp [lookupJ] at hk
  | cons p rest ih =>
    intro d k v hnd hk
    obtain ⟨key, value⟩ := p
    have hnd1 : key ∉ keysOf rest ∧ (keysOf rest).Nodup := by
      simpa [keysOf] using hnd
    rw [merge_config_cons]
    by_cases h : key = k
    · subst h
      have hv : value = v := by simpa [lookupJ] using hk
      subst hv
      rw [lookupJ_merge_not_mem _ _ _ hnd1.1, lookupJ_setKey_self]
    · have hk2 : lookupJ rest k = some v := by simpa [lookupJ, h] using hk
      rw [ih _ k v hnd1.2 hk2, lookupJ_setKey_ne _ _ _ _ h]

/-- C5: the merged configuration contains every key of the default
document; at each user key the stored value is the user value, merged
recursively when both sides are dicts and overwriting outright otherwise;
and on the concrete example the override of `fps` keeps `res`. -/
theorem c5_merge_config :
    (∀ (d u : List (String × JValue)) (k : String),
      k ∈ keysOf d → k ∈ keysOf (_merge_config d u)) ∧
    (∀ (d u : List (String × JValue)) (k : String) (v : JValue),
      (keysOf u).Nodup → lookupJ u k = some v →
      lookupJ (_merge_config d u) k = some (mergeVal (lookupJ d k) v)) ∧
    _merge_config
        [("camera", JValue.obj
          [("fps", JValue.num 30), ("res", JValue.arr [1920, 1080])])]
        [("camera", JValue.obj [("fps", JValue.num 60)])] =
      [("camera", JValue.obj
        [("fps", JValue.num 60), ("res", JValue.arr [1920, 1080])])] := by
  refine ⟨fun d u k h => keysOf_merge_mem u d k h,
    fun d u k v hnd hk => lookupJ_merge u d k v hnd hk, ?_⟩
  rw [merge_config_cons]
  simp [lookupJ, mergeVal, merge_config_cons, setKey, _merge_config]

theorem c5_merge_config_witness :
    "camera" ∈ keysOf (_merge_config [("camera", JValue.num 1)] []) ∧
    lookupJ (_merge_config [("camera", JValue.num 1)]
        [("camera", JValue.num 2)]) "camera" =
      some (mergeVal (lookupJ [("camera", JValue.num 1)] "camera")
        (JValue.num 2)) :=
  ⟨c5_merge_config.1 _ _ _ (by simp [keysOf]),
   c5_merge_config.2.1 _ _ _ _ (by simp [keysOf]) (by simp [lookupJ])⟩

/-- A frame recorded strictly after the previous one succeeds, increments
the frame counter, stores the new timestamp and keeps the rate window
within capacity 30. -/
theorem update_frame_stats_ok (s : Stats) (t : ℚ) (h : s.last_frame_time < t)
    (hw : s.fps_history.length ≤ 30) :
    ∃ s2, update_frame_stats s t = Except.ok s2 ∧
      s2.frame_count = s.frame_count + 1 ∧ s2.last_frame_time = t ∧
      s2.fps_history.length ≤ 30 := by
  unfold update_frame_stats
  by_cases h0 : 0 < s.last_frame_time
  · have hne : ¬ t - s.last_frame_time = 0 :=
      sub_ne_zero.mpr (ne_of_gt h)
    rw [if_pos h0, if_neg hne]
    refine ⟨_, rfl, rfl, rfl, ?_⟩
    by_cases h30 : 30 < (s.fps_history ++ [1 / (t - s.last_frame_time)]).length
    · simp only [if_pos h30]
      simp at h30 ⊢
      omega
    · simp only [if_neg h30]
      simp at h30 ⊢
      omega
  · rw [if_neg h0]
    exact ⟨_, rfl, rfl, rfl, hw⟩

/-- Running `update_frame_stats` over strictly increasing timestamps never
raises, counts every call and keeps the rate window within capacity. -/
theorem run_frames_ok : ∀ (ts : List ℚ) (s : Stats),
    List.Chain' (· < ·) (s.last_frame_time :: ts) →
    s.fps_history.length ≤ 30 →
    ∃ s2, run_frames s ts = Except.ok s2 ∧
      s2.frame_count = s.frame_count + ts.length ∧
      s2.fps_history.length ≤ 30
  | [], s, _, hw => ⟨s, rfl, by simp, hw⟩
  | t :: ts, s, hc, hw => by
    have h1 : s.last_frame_time < t := (List.chain'_cons.mp hc).1
    obtain ⟨s2, he, hcnt, hlast, hwin⟩ := update_frame_stats_ok s t h1 hw
    have hc2 : List.Chain' (· < ·) (s2.last_frame_time :: ts) := by
      rw [hlast]
      exact (List.chain'_cons.mp hc).2
    obtain ⟨s3, he3, hcnt3, hwin3⟩ := run_frames_ok ts s2 hc2 hwin
    refine ⟨s3, ?_, ?_, hwin3⟩
    · simp [run_frames, he, he3]
    · rw [hcnt3, hcnt]
      simp
      omega

/-- One temperature reading keeps the temperature window within capacity
60. -/
theorem add_temperature_reading_le (s : Stats) (temp : ℚ)
    (h : s.temperature_history.length ≤ 60) :
    (add_temperature_reading s temp).temperature_history.length ≤ 60 := by
  unfold add_temperature_reading
  by_cases h60 : 60 < (s.temperature_history ++ [temp]).length
  · simp only [if_pos h60]
    simp at h60 ⊢
    omega
  · simp only [if_neg h60]
    simp at h60 ⊢
    omega

/-- Any sequence of temperature readings keeps the window within capacity
60. -/
theorem run_temperatures_le : ∀ (temps : List ℚ) (s : Stats),
    s.temperature_history.length ≤ 60 →
    (run_temperatures s temps).temperature_history.length ≤ 60
  | [], _, h => h
  | t :: ts, s, h =>
    run_temperatures_le ts (add_temperature_reading s t)
      (add_temperature_reading_le s t h)

/-- C9: starting from a fresh statistics object, for every strictly
increasing timestamp sequence every prefix of the `update_frame_stats`
calls succeeds, `frame_count` equals the number of calls made, and the
rate window holds at most 30 entries after every call; likewise every
sequence of `add_temperature_reading` calls leaves at most 60 entries in
the temperature window after every call. -/
theorem c9_counters_and_windows :
    (∀ (t0 : ℚ) (ts pre suf : List ℚ), ts = pre ++ suf →
      List.Chain' (· < ·) ((initStats t0).last_frame_time :: ts) →
      ∃ s2, run_frames (initStats t0) pre = Except.ok s2 ∧
        s2.frame_count = pre.length ∧ s2.fps_history.length ≤ 30) ∧
    (∀ (t0 : ℚ) (temps : List ℚ),
      (run_temperatures (initStats t0) temps).temperature_history.length ≤
        60) := by
  constructor
  · intro t0 ts pre suf hsplit hc
    subst hsplit
    have hc1 : List.Chain' (· < ·) ((initStats t0).last_frame_time :: pre) := by
      have : List.Chain' (· < ·)
          (((initStats t0).last_frame_time :: pre) ++ suf) := by
        simpa using hc
      exact (List.chain'_append.mp this).1
    obtain ⟨s2, he, hcnt, hwin⟩ :=
      run_frames_ok pre (initStats t0) hc1 (by simp [initStats])
    exact ⟨s2, he, by simpa [initStats] using hcnt, hwin⟩
  · intro t0 temps
    exact run_temperatures_le temps (initStats t0) (by simp [initStats])

theorem c9_counters_and_windows_witness :
    (∃ s2, run_frames (initStats 0) [1, 2] = Except.ok s2 ∧
      s2.frame_count = ([1, 2] : List ℚ).length ∧
      s2.fps_history.length ≤ 30) ∧
    (run_temperatures (initStats 0) [35, 36]).temperature_history.length ≤
      60 :=
  ⟨c9_counters_and_windows.1 0 [1, 2] [1, 2] [] (by simp)
      (by norm_num [initStats]),
   c9_counters_and_windows.2 0 [35, 36]⟩

/-- Behaviour of one retention sweep on a directory of distinct-named
`.jpg` artifacts with a positive file cap: afterwards at most `max_files`
files remain, and every evicted file is at least as old (by creation time)
as every survivor. -/
theorem cleanup_spec (max_files : Nat) (dir : List SavedFile)
    (hmax : 1 ≤ max_files)
    (hjpg : ∀ f ∈ dir, f.name.ext = ".jpg")
    (hnd : (dir.map SavedFile.name).Nodup) :
    (_cleanup_old_files max_files dir).length ≤ max_files ∧
    (∀ f ∈ dir, f ∉ _cleanup_old_files max_files dir →
      ∀ g ∈ _cleanup_old_files max_files dir, f.ctime ≤ g.ctime) := by
  unfold _cleanup_old_files
  have hfilter : jpgFiles dir = dir := by
    unfold jpgFiles
    refine List.filter_eq_self.mpr ?_
    intro f hf
    simpa using hjpg f hf
  rw [hfilter]
  have hperm : List.Perm (List.insertionSort ctLe dir) dir :=
    List.perm_insertionSort ctLe dir
  have hslen : (List.insertionSort ctLe dir).length = dir.length := hperm.length_eq
  by_cases hlt : max_files < (List.insertionSort ctLe dir).length
  · rw [if_pos hlt]
    have hmax0 : ¬ max_files = 0 := by omega
    rw [if_neg hmax0]
    set s := List.insertionSort ctLe dir with hs
    set k := s.length - max_files with hk
    set R := s.take k with hR
    set survivors := dir.filter
      (fun f => !(R.any (fun g => g.name == f.name))) with hsurv
    have hndS : (s.map SavedFile.name).Nodup :=
      ((hperm.map SavedFile.name).nodup_iff).mpr hnd
    have hRnames : R.map SavedFile.name = (s.map SavedFile.name).take k := by
      rw [hR, List.map_take]
    have hndR : (R.map SavedFile.name).Nodup := by
      rw [hRnames]
      exact hndS.sublist (List.take_sublist k _)
    have hRlen : R.length = k := by
      rw [hR, List.length_take]
      omega
    have hRsubS : ∀ g ∈ R, g ∈ s := fun g hg => List.take_subset k s hg
    have hRsubDir : ∀ g ∈ R, g ∈ dir := fun g hg =>
      hperm.mem_iff.mp (hRsubS g hg)
    -- membership in the survivor list
    have hmem : ∀ f, f ∈ survivors ↔
        f ∈ dir ∧ ∀ g ∈ R, g.name ≠ f.name := by
      intro f
      rw [hsurv]
      simp [List.mem_filter]
    -- a file of `dir` absent from the survivors was listed for removal
    have hremoved : ∀ f ∈ dir, f ∉ survivors → f ∈ R := by
      intro f hf hnot
      rcases (by simpa [hmem f, hf] using hnot : ∃ g ∈ R, g.name = f.name)
        with ⟨g, hg, hgname⟩
      have : g = f :=
        List.inj_on_of_nodup_map hnd (hRsubDir g hg) hf hgname
      exact this ▸ hg
    constructor
    · -- counting: survivor names live in the name set minus removed names
      have hsurvSub : survivors.Sublist dir := by
        rw [hsurv]; exact List.filter_sublist dir
      have hndSurv : (survivors.map SavedFile.name).Nodup :=
        hnd.sublist (hsurvSub.map SavedFile.name)
      have hsubset : (survivors.map SavedFile.name).toFinset ⊆
          (dir.map SavedFile.name).toFinset \ (R.map SavedFile.name).toFinset := by
        intro x hx
        rcases List.mem_map.mp (List.mem_toFinset.mp hx) with ⟨f, hf, rfl⟩
        have hf2 := (hmem f).mp hf
        refine Finset.mem_sdiff.mpr ⟨?_, ?_⟩
        · exact List.mem_toFinset.mpr (List.mem_map.mpr ⟨f, hf2.1, rfl⟩)
        · intro hmemR
          rcases List.mem_map.mp (List.mem_toFinset.mp hmemR) with ⟨g, hg, hgname⟩
          exact hf2.2 g hg hgname
      have hBsubA : (R.map SavedFile.name).toFinset ⊆
          (dir.map SavedFile.name).toFinset := by
        intro x hx
        rcases List.mem_map.mp (List.mem_toFinset.mp hx) with ⟨g, hg, rfl⟩
        exact List.mem_toFinset.mpr (List.mem_map.mpr ⟨g, hRsubDir g hg, rfl⟩)
      have hcardA : (dir.map SavedFile.name).toFinset.card = dir.length := by
        rw [List.toFinset_card_of_nodup hnd, List.length_map]
      have hcardB : (R.map SavedFile.name).toFinset.card = k := by
        rw [List.toFinset_card_of_nodup hndR, List.length_map, hRlen]
      calc survivors.length
          = (survivors.map SavedFile.name).length := (List.length_map _ _).symm
        _ = (survivors.map SavedFile.name).toFinset.card :=
            (List.toFinset_card_of_nodup hndSurv).symm
        _ ≤ ((dir.map SavedFile.name).toFinset \
              (R.map SavedFile.name).toFinset).card :=
            Finset.card_le_card hsubset
        _ = (dir.map SavedFile.name).toFinset.card -
              (R.map SavedFile.name).toFinset.card :=
            Finset.card_sdiff hBsubA
        _ ≤ max_files := by
            rw [hcardA, hcardB]
            omega
    · -- eviction order: removed files are the oldest
      intro f hf hnot g hg
      have hfR : f ∈ R := hremoved f hf hnot
      have hgmem := (hmem g).mp hg
      have hgnotR : g ∉ R := fun hgR => hgmem.2 g hgR rfl
      have hgS : g ∈ s := hperm.mem_iff.mpr hgmem.1
      have hgdrop : g ∈ s.drop k := by
        have hsplit : s.take k ++ s.drop k = s := List.take_append_drop k s
        have hgS2 : g ∈ s.take k ++ s.drop k := by rw [hsplit]; exact hgS
        rcases List.mem_append.mp hgS2 with h1 | h1
        · exact absurd h1 hgnotR
        · exact h1
      have hsort : List.Sorted ctLe s := List.sorted_insertionSort ctLe dir
      have hp : List.Pairwise ctLe (R ++ s.drop k) := by
        rw [hR, List.take_append_drop k s]
        exact hsort
      exact (List.pairwise_append.mp hp).2.2 f hfR g hgdrop
  · rw [if_neg hlt]
    refine ⟨by omega, ?_⟩
    intro f hf hnot g _
    exact absurd hf hnot

/-- C4 (counterexample): `_save_imu_data` runs no retention sweep, so
after 8 sequential completed saves to the `imu` kind directory all 8 files
remain — not the 5 most recent — whatever `max_files` is configured to. -/
theorem c4_counterexample :
    (imuSaves 8).length = 8 ∧ (imuSaves 8).length ≠ 5 := by
  decide

/-- C4 (amended): for the image artifacts, which `_save_frame` sweeps with
`_cleanup_old_files`: with `max_files = 5`, after 8 sequential completed
saves exactly the 5 most-recently-created files remain; and for every
directory of distinct-named `.jpg` artifacts and every positive cap, after
a sweep at most `max_files` files remain and eviction removes
oldest-by-creation-time first.  The `imu` kind directory is exempt:
`_save_imu_data` performs no sweep. -/
theorem c4_retention :
    frameSaves 5 8 =
      [{ name := { kind := "rgb", stamp := 4, seq := 3, ext := ".jpg" },
         ctime := 4 },
       { name := { kind := "rgb", stamp := 5, seq := 4, ext := ".jpg" },
         ctime := 5 },
       { name := { kind := "rgb", stamp := 6, seq := 5, ext := ".jpg" },
         ctime := 6 },
       { name := { kind := "rgb", stamp := 7, seq := 6, ext := ".jpg" },
         ctime := 7 },
       { name := { kind := "rgb", stamp := 8, seq := 7, ext := ".jpg" },
         ctime := 8 }] ∧
    (∀ (max_files : Nat) (dir : List SavedFile), 1 ≤ max_files →
      (∀ f ∈ dir, f.name.ext = ".jpg") →
      (dir.map SavedFile.name).Nodup →
      (_cleanup_old_files max_files dir).length ≤ max_files ∧
      (∀ f ∈ dir, f ∉ _cleanup_old_files max_files dir →
        ∀ g ∈ _cleanup_old_files max_files dir, f.ctime ≤ g.ctime)) := by
  exact ⟨by decide, fun max_files dir hmax hjpg hnd =>
    cleanup_spec max_files dir hmax hjpg hnd⟩

theorem c4_retention_witness :
    (_cleanup_old_files 1
        [{ name := { kind := "rgb", stamp := 1, seq := 0, ext := ".jpg" },
           ctime := 1 },
         { name := { kind := "rgb", stamp := 2, seq := 1, ext := ".jpg" },
           ctime := 2 }]).length ≤ 1 ∧
    (∀ f ∈ [{ name := { kind := "rgb", stamp := 1, seq := 0, ext := ".jpg" },
              ctime := 1 },
            { name := { kind := "rgb", stamp := 2, seq := 1, ext := ".jpg" },
              ctime := 2 }],
      f ∉ _cleanup_old_files 1
        [{ name := { kind := "rgb", stamp := 1, seq := 0, ext := ".jpg" },
           ctime := 1 },
         { name := { kind := "rgb", stamp := 2, seq := 1, ext := ".jpg" },
           ctime := 2 }] →
      ∀ g ∈ _cleanup_old_files 1
        [{ name := { kind := "rgb", stamp := 1, seq := 0, ext := ".jpg" },
           ctime := 1 },
         { name := { kind := "rgb", stamp := 2, seq := 1, ext := ".jpg" },
           ctime := 2 }], f.ctime ≤ g.ctime) :=
  c4_retention.2 1
    [{ name := { kind := "rgb", stamp := 1, seq := 0, ext := ".jpg" },
       ctime := 1 },
     { name := { kind := "rgb", stamp := 2, seq := 1, ext := ".jpg" },
       ctime := 2 }]
    (by decide) (by decide) (by decide)

end DepthAI
